import Mathlib

/-!
Verification of the engineering-resource-management backend (`server.js`).

The server keeps three record kinds (users, projects, assignments) in a
document store and derives capacity/utilization figures from overlapping
assignment windows.  We model the store as explicit lists, dates as integer
timestamps (any order-embedding of calendar dates; comparisons are the only
operations the code performs on dates), identifiers as naturals, and JS
numbers that the code only adds / subtracts / compares as integers.
Utilization, which divides, is computed in ℚ.
-/

namespace ERM

/-- A user record (`userSchema`).  Fields the claims never touch
(email, password, skills, seniority, department) are omitted. -/
structure User where
  id : Nat
  name : String
  role : String            -- "engineer" or "manager"
  maxCapacity : Int        -- `maxCapacity: { type: Number, default: 100 }`
  deriving Repr, DecidableEq

/-- A project record (`projectSchema`); only the identifier matters to the
claims (deletion and referential checks go through it). -/
structure Project where
  id : Nat
  name : String
  deriving Repr, DecidableEq

/-- An assignment record (`assignmentSchema`). -/
structure Assignment where
  id : Nat
  engineerId : Nat
  projectId : Nat
  allocationPercentage : Int
  startDate : Int
  endDate : Int
  role : String
  deriving Repr, DecidableEq

/-- The schema bound `allocationPercentage: { type: Number, required: true,
min: 0, max: 100 }`. -/
def allocationInSchemaRange (p : Int) : Bool :=
  0 ≤ p && p ≤ 100

/-- The document store: the three collections. -/
structure DB where
  users : List User
  projects : List Project
  assignments : List Assignment
  deriving Repr, DecidableEq

/-- Lookup `User.findById`. -/
def findUser (db : DB) (uid : Nat) : Option User :=
  db.users.find? (fun u => u.id == uid)

/-- Lookup `Project.findById`. -/
def findProject (db : DB) (pid : Nat) : Option Project :=
  db.projects.find? (fun p => p.id == pid)

/-- The Mongo filter `{ startDate: { $lte: endDate }, endDate: { $gte:
startDate } }` used by `getAvailableCapacity`: interval overlap, inclusive
at both boundaries. -/
def overlaps (a : Assignment) (startDate endDate : Int) : Bool :=
  a.startDate ≤ endDate && a.endDate ≥ startDate

/-- Query `Assignment.find` with filter engineerId plus the overlap
condition on startDate and endDate. -/
def overlappingAssignments (db : DB) (engineerId : Nat)
    (startDate endDate : Int) : List Assignment :=
  db.assignments.filter
    (fun a => a.engineerId == engineerId && overlaps a startDate endDate)

/-- Helper `getAvailableCapacity(engineerId, startDate, endDate)`:
fetch the engineer (absent ⇒ 0), sum `allocationPercentage` over the
overlapping assignments, return `Math.max(0, maxCapacity - totalAllocated)`. -/
def getAvailableCapacity (db : DB) (engineerId : Nat)
    (startDate endDate : Int) : Int :=
  match findUser db engineerId with
  | none => 0
  | some engineer =>
    let totalAllocated :=
      (overlappingAssignments db engineerId startDate endDate).foldl
        (fun sum a => sum + a.allocationPercentage) 0
    max 0 (engineer.maxCapacity - totalAllocated)

/-- The sum the spec describes: Σ allocationPercentage over the engineer's
assignments whose interval overlaps the query interval. -/
def allocationSum (db : DB) (engineerId : Nat) (s e : Int) : Int :=
  ((overlappingAssignments db engineerId s e).map
    (fun a => a.allocationPercentage)).sum

/-! ## POST /api/assignments -/

/-- The request body of `POST /api/assignments` after destructuring.
Each field is `none` when absent from the JSON body. -/
structure CreateAssignmentReq where
  engineerId : Option Nat
  projectId : Option Nat
  allocationPercentage : Option Int
  startDate : Option Int
  endDate : Option Int
  role : Option String
  deriving Repr, DecidableEq

/-- JS falsiness of an optional identifier: `!engineerId` is true when the
field is absent (`undefined`). -/
def falsyId : Option Nat → Bool
  | none => true
  | some _ => false

/-- JS falsiness of an optional number: `!allocationPercentage` is true when
the field is absent or equal to `0`. -/
def falsyNum : Option Int → Bool
  | none => true
  | some n => n == 0

/-- JS falsiness of an optional date value: true when the field is absent. -/
def falsyDate : Option Int → Bool
  | none => true
  | some _ => false

/-- JS falsiness of an optional string: `!role` is true when the field is
absent or the empty string. -/
def falsyStr : Option String → Bool
  | none => true
  | some s => s == ""

/-- The outcome of `POST /api/assignments`, tagged by the branch of the
handler that produced it. -/
inductive CreateResult where
  | missingFields                                -- 400 "Missing required fields …"
  | engineerNotFound                             -- 404 "Engineer not found"
  | projectNotFound                              -- 404 "Project not found"
  | capacityExceeded (available requested : Int) -- 400 "Engineer only has …"
  | created (a : Assignment)                     -- 201
  deriving Repr, DecidableEq

/-- HTTP status code of each `CreateResult` branch. -/
def CreateResult.status : CreateResult → Nat
  | .missingFields => 400
  | .engineerNotFound => 404
  | .projectNotFound => 404
  | .capacityExceeded _ _ => 400
  | .created _ => 201

/-- The `POST /api/assignments` handler body: falsiness check on the six
destructured fields, engineer lookup, project lookup, capacity check
against `getAvailableCapacity` over the request's own window, then
persistence (`assignment.save()` modelled as appending to the collection).
`newId` stands for the store-generated `_id`. -/
def createAssignment (db : DB) (req : CreateAssignmentReq) (newId : Nat) :
    CreateResult × DB :=
  if falsyId req.engineerId || falsyId req.projectId ||
     falsyNum req.allocationPercentage ||
     falsyDate req.startDate || falsyDate req.endDate ||
     falsyStr req.role then
    (.missingFields, db)
  else
    match req.engineerId, req.projectId, req.allocationPercentage,
          req.startDate, req.endDate, req.role with
    | some engineerId, some projectId, some allocationPercentage,
      some startDate, some endDate, some role =>
      match findUser db engineerId with
      | none => (.engineerNotFound, db)
      | some _engineer =>
        match findProject db projectId with
        | none => (.projectNotFound, db)
        | some _project =>
          let availableCapacity :=
            getAvailableCapacity db engineerId startDate endDate
          if allocationPercentage > availableCapacity then
            (.capacityExceeded availableCapacity allocationPercentage, db)
          else
            let assignment : Assignment :=
              { id := newId
                engineerId := engineerId
                projectId := projectId
                allocationPercentage := allocationPercentage
                startDate := startDate
                endDate := endDate
                role := if role == "" then "Developer" else role }
            (.created assignment,
             { db with assignments := db.assignments ++ [assignment] })
    | _, _, _, _, _, _ => (.missingFields, db)

/-! ## DELETE /api/projects/:id -/

/-- The outcome of `DELETE /api/projects/:id`. -/
inductive DeleteProjectResult where
  | notFound        -- 404 "Project not found"
  | hasAssignments  -- 400 "Cannot delete project with active assignments …"
  | deleted         -- 200
  deriving Repr, DecidableEq

/-- HTTP status code of each `DeleteProjectResult` branch. -/
def DeleteProjectResult.status : DeleteProjectResult → Nat
  | .notFound => 404
  | .hasAssignments => 400
  | .deleted => 200

/-- The `DELETE /api/projects/:id` handler body: existence check, then
`Assignment.find({ projectId: id })` — any hit is a 400 — then
`Project.findByIdAndDelete(id)`. -/
def deleteProject (db : DB) (id : Nat) : DeleteProjectResult × DB :=
  match findProject db id with
  | none => (.notFound, db)
  | some _project =>
    let activeAssignments := db.assignments.filter (fun a => a.projectId == id)
    if activeAssignments.length > 0 then
      (.hasAssignments, db)
    else
      (.deleted,
       { db with projects := db.projects.filter (fun p => !(p.id == id)) })

/-! ## GET /api/assignments -/

/-- The `{userId, role}` pair a verified token embeds (`req.user`). -/
structure Caller where
  userId : Nat
  role : String
  deriving Repr, DecidableEq

/-- The `GET /api/assignments` handler body: engineers get the filter
`{ engineerId: req.user.userId }`, everyone else the empty filter; the
result is sorted by `startDate` descending. -/
def listAssignments (db : DB) (caller : Caller) : List Assignment :=
  let matched :=
    if caller.role == "engineer" then
      db.assignments.filter (fun a => a.engineerId == caller.userId)
    else
      db.assignments
  matched.mergeSort (fun a b => b.startDate ≤ a.startDate)

/-! ## GET /api/engineers -/

/-- One element of the `GET /api/engineers` response. -/
structure EngineerEntry where
  user : User
  availableCapacity : Int
  currentAllocation : Int
  deriving Repr, DecidableEq

/-- The `GET /api/engineers` handler body: for every user with role
"engineer", compute `getAvailableCapacity` over `[currentDate, futureDate]`
(where `futureDate` is one month after `currentDate`) and report
`currentAllocation = maxCapacity - availableCapacity`. -/
def listEngineers (db : DB) (currentDate futureDate : Int) :
    List EngineerEntry :=
  (db.users.filter (fun u => u.role == "engineer")).map fun engineer =>
    let availableCapacity :=
      getAvailableCapacity db engineer.id currentDate futureDate
    { user := engineer
      availableCapacity := availableCapacity
      currentAllocation := engineer.maxCapacity - availableCapacity }

/-! ## GET /api/analytics/utilization -/

/-- One element of the utilization report. -/
structure UtilizationEntry where
  engineerId : Nat
  name : String
  maxCapacity : Int
  currentAllocation : Int
  utilizationPercentage : ℚ
  deriving Repr, DecidableEq

/-- Query used by the utilization route: the engineer's assignments whose
window contains today (startDate at most currentDate, endDate at least
currentDate). -/
def assignmentsContaining (db : DB) (engineerId : Nat) (currentDate : Int) :
    List Assignment :=
  db.assignments.filter
    (fun a => a.engineerId == engineerId &&
      a.startDate ≤ currentDate && a.endDate ≥ currentDate)

/-- The `GET /api/analytics/utilization` handler body: for every engineer,
sum allocations of assignments containing `currentDate` and report
`(currentAllocation / maxCapacity) * 100`.  The division carries no zero
guard; JS float division is modelled by total division in ℚ. -/
def utilizationReport (db : DB) (currentDate : Int) :
    List UtilizationEntry :=
  (db.users.filter (fun u => u.role == "engineer")).map fun engineer =>
    let currentAllocation :=
      (assignmentsContaining db engineer.id currentDate).foldl
        (fun sum a => sum + a.allocationPercentage) 0
    { engineerId := engineer.id
      name := engineer.name
      maxCapacity := engineer.maxCapacity
      currentAllocation := currentAllocation
      utilizationPercentage :=
        ((currentAllocation : ℚ) / (engineer.maxCapacity : ℚ)) * 100 }

/-! ## Concrete stores used to exercise the theorems -/

/-- The engineer of the worked example in the spec: maxCapacity 100. -/
def demoEngineer : User :=
  { id := 1, name := "John Doe", role := "engineer", maxCapacity := 100 }

/-- A project for the worked example. -/
def demoProject : Project :=
  { id := 1, name := "E-commerce Platform" }

/-- The existing assignment of the worked example: 60% over
[2025-06-01, 2025-09-30].  Dates are encoded as yyyymmdd integers, an
order-embedding of calendar dates. -/
def demoAssignment : Assignment :=
  { id := 1, engineerId := 1, projectId := 1, allocationPercentage := 60,
    startDate := 20250601, endDate := 20250930, role := "Tech Lead" }

/-- The store of the worked example. -/
def demoDB : DB :=
  { users := [demoEngineer], projects := [demoProject],
    assignments := [demoAssignment] }

/-- An empty store. -/
def emptyDB : DB :=
  { users := [], projects := [], assignments := [] }

/-- An engineer whose maxCapacity is 0: available capacity is 0 for every
query window even though the engineer exists. -/
def zeroCapDB : DB :=
  { users := [{ id := 2, name := "Zed", role := "engineer", maxCapacity := 0 }],
    projects := [], assignments := [] }

/-- An assignment ending exactly on the query start date of the boundary
example: window [2025-01-01, 2025-01-10]. -/
def boundaryAssignment : Assignment :=
  { id := 3, engineerId := 1, projectId := 1, allocationPercentage := 60,
    startDate := 20250101, endDate := 20250110, role := "Developer" }

/-- A store holding only the boundary assignment. -/
def boundaryDB : DB :=
  { users := [demoEngineer], projects := [demoProject],
    assignments := [boundaryAssignment] }

/-- An engineer whose overlapping allocations sum to 150, above the
maxCapacity of 100. -/
def overAllocDB : DB :=
  { users := [demoEngineer], projects := [demoProject],
    assignments :=
      [{ id := 4, engineerId := 1, projectId := 1, allocationPercentage := 80,
         startDate := 0, endDate := 50, role := "Developer" },
       { id := 5, engineerId := 1, projectId := 1, allocationPercentage := 70,
         startDate := 10, endDate := 60, role := "Developer" }] }

/-! ## Helper lemmas -/

/-- Folding additions of allocation percentages is the sum of the mapped
list. -/
theorem foldl_add_alloc (l : List Assignment) (init : Int) :
    l.foldl (fun sum a => sum + a.allocationPercentage) init
      = init + (l.map (fun a => a.allocationPercentage)).sum := by
  induction l generalizing init with
  | nil => simp
  | cons a t ih => simp [List.foldl_cons, ih, add_assoc]

/-- Available capacity is clamped at zero from below, whatever the store. -/
theorem getAvailableCapacity_nonneg (db : DB) (eid : Nat) (s e : Int) :
    0 ≤ getAvailableCapacity db eid s e := by
  unfold getAvailableCapacity
  cases findUser db eid with
  | none => exact le_refl 0
  | some engineer => exact le_max_left 0 _

/-- Evaluation of the capacity calculator when the engineer exists. -/
theorem getAvailableCapacity_found (db : DB) (eid : Nat) (s e : Int)
    (engineer : User) (h : findUser db eid = some engineer) :
    getAvailableCapacity db eid s e
      = max 0 (engineer.maxCapacity - allocationSum db eid s e) := by
  unfold getAvailableCapacity
  rw [h]
  simp [allocationSum, foldl_add_alloc]

/-- Appending one assignment of the queried engineer whose window overlaps
the query adds its allocation to the overlap sum. -/
theorem allocationSum_append (db : DB) (eid : Nat) (s e : Int)
    (a : Assignment) (hengr : a.engineerId = eid)
    (hov : overlaps a s e = true) :
    allocationSum { db with assignments := db.assignments ++ [a] } eid s e
      = allocationSum db eid s e + a.allocationPercentage := by
  unfold allocationSum overlappingAssignments
  simp [List.filter_append, hengr, hov]

/-- The record `POST /api/assignments` persists on success (the handler
fills `role` with the request's non-falsy role). -/
def newAssignment (nid eid pid : Nat) (alloc s e : Int) (role : String) :
    Assignment :=
  { id := nid, engineerId := eid, projectId := pid,
    allocationPercentage := alloc, startDate := s, endDate := e,
    role := role }

/-- Evaluation of the create-assignment handler on a request with all six
fields present and non-falsy: the falsiness gate passes and the handler
proceeds to the lookups and the capacity check. -/
theorem createAssignment_run (db : DB) (nid eid pid : Nat)
    (alloc s e : Int) (role : String)
    (ha : alloc ≠ 0) (hr : role ≠ "") :
    createAssignment db
        ⟨some eid, some pid, some alloc, some s, some e, some role⟩ nid
      = match findUser db eid with
        | none => (.engineerNotFound, db)
        | some _ =>
          match findProject db pid with
          | none => (.projectNotFound, db)
          | some _ =>
            if alloc > getAvailableCapacity db eid s e then
              (.capacityExceeded (getAvailableCapacity db eid s e) alloc, db)
            else
              (.created (newAssignment nid eid pid alloc s e role),
               { db with assignments :=
                  db.assignments ++ [newAssignment nid eid pid alloc s e role] }) := by
  have hfalse : ¬ ((falsyId (some eid) || falsyId (some pid) ||
      falsyNum (some alloc) || falsyDate (some s) || falsyDate (some e) ||
      falsyStr (some role)) = true) := by
    simp [falsyId, falsyNum, falsyDate, falsyStr, ha, hr]
  unfold createAssignment
  rw [if_neg hfalse]
  cases h : findUser db eid with
  | none => simp [h]
  | some engineer =>
    cases h2 : findProject db pid with
    | none => simp [h, h2]
    | some project =>
      by_cases hc : alloc > getAvailableCapacity db eid s e
      · simp [h, h2, hc]
      · simp [h, h2, hc, newAssignment, hr]

/-! ## Claim theorems -/

/-- C1: for every engineer E and interval [s,e] the capacity calculator
returns max(0, E.maxCapacity − Σ allocationPercentage over E's assignments
overlapping [s,e]), and the result is never negative. -/
theorem getAvailableCapacity_spec (db : DB) (eid : Nat) (s e : Int)
    (engineer : User) (h : findUser db eid = some engineer) :
    getAvailableCapacity db eid s e
      = max 0 (engineer.maxCapacity - allocationSum db eid s e) ∧
    0 ≤ getAvailableCapacity db eid s e := by
  refine ⟨?_, getAvailableCapacity_nonneg db eid s e⟩
  unfold getAvailableCapacity
  rw [h]
  simp [allocationSum, foldl_add_alloc]

/-- Witness for C1 at the worked-example store: capacity of engineer 1 over
[2025-07-01, 2025-08-01]. -/
theorem getAvailableCapacity_spec_witness :
    getAvailableCapacity demoDB 1 20250701 20250801
      = max 0 (demoEngineer.maxCapacity - allocationSum demoDB 1 20250701 20250801) ∧
    0 ≤ getAvailableCapacity demoDB 1 20250701 20250801 :=
  getAvailableCapacity_spec demoDB 1 20250701 20250801 demoEngineer (by rfl)

/-- C3: the overlap test of the capacity calculator is
assignment.startDate ≤ queryEnd AND assignment.endDate ≥ queryStart,
inclusive at both boundaries; in particular the assignment
[2025-01-01, 2025-01-10] overlaps the query [2025-01-10, 2025-01-20] and is
therefore picked up by the capacity query. -/
theorem overlap_inclusive_spec (a : Assignment) (s e : Int) :
    overlaps a s e = (decide (a.startDate ≤ e) && decide (s ≤ a.endDate)) ∧
    overlaps boundaryAssignment 20250110 20250120 = true ∧
    overlappingAssignments boundaryDB 1 20250110 20250120
      = [boundaryAssignment] ∧
    getAvailableCapacity boundaryDB 1 20250110 20250120 = 40 := by
  refine ⟨rfl, by decide, by decide, by decide⟩

/-- C6: a nonexistent engineer id yields capacity 0 rather than an error,
exactly what an existing engineer with zero available capacity yields, so
the two cases are indistinguishable to callers. -/
theorem capacity_missing_engineer (db : DB) (eid : Nat) (s e : Int)
    (h : findUser db eid = none) :
    getAvailableCapacity db eid s e = 0 ∧
    (findUser zeroCapDB 2).isSome = true ∧
    getAvailableCapacity zeroCapDB 2 s e = 0 := by
  refine ⟨?_, by decide, ?_⟩
  · unfold getAvailableCapacity
    rw [h]
  · unfold getAvailableCapacity
    simp [findUser, zeroCapDB, overlappingAssignments]

/-- Witness for C6: the empty store holds no engineer 1, and the query over
[0, 10] returns 0. -/
theorem capacity_missing_engineer_witness :
    getAvailableCapacity emptyDB 1 0 10 = 0 ∧
    (findUser zeroCapDB 2).isSome = true ∧
    getAvailableCapacity zeroCapDB 2 0 10 = 0 :=
  capacity_missing_engineer emptyDB 1 0 10 (by rfl)

/-- C4: deleting a project with at least one referencing assignment answers
400 and changes nothing; deleting a project with no referencing assignment
answers success, removes the project, and leaves users and assignments
untouched. -/
theorem deleteProject_spec (db : DB) (id : Nat) (p : Project)
    (hp : findProject db id = some p) :
    ((db.assignments.filter (fun a => a.projectId == id)).length > 0 →
      deleteProject db id = (.hasAssignments, db) ∧
      DeleteProjectResult.hasAssignments.status = 400) ∧
    ((db.assignments.filter (fun a => a.projectId == id)).length = 0 →
      (deleteProject db id).1 = .deleted ∧
      (deleteProject db id).2.projects
        = db.projects.filter (fun q => !(q.id == id)) ∧
      findProject (deleteProject db id).2 id = none ∧
      (deleteProject db id).2.assignments = db.assignments ∧
      (deleteProject db id).2.users = db.users) := by
  constructor
  · intro hlen
    have hrun : deleteProject db id = (.hasAssignments, db) := by
      unfold deleteProject
      rw [hp]
      exact if_pos hlen
    exact ⟨hrun, rfl⟩
  · intro hlen
    have hrun : deleteProject db id
        = (.deleted,
           { db with projects := db.projects.filter (fun q => !(q.id == id)) }) := by
      unfold deleteProject
      rw [hp]
      exact if_neg (by omega)
    rw [hrun]
    refine ⟨rfl, rfl, ?_, rfl, rfl⟩
    apply List.find?_eq_none.mpr
    intro q hq
    rw [List.mem_filter] at hq
    simpa using hq.2

/-- Witness for C4 at the worked-example store, whose single project is
referenced by one assignment: deletion is refused and nothing changes. -/
theorem deleteProject_spec_witness :
    (((demoDB.assignments.filter (fun a => a.projectId == 1)).length > 0 →
      deleteProject demoDB 1 = (.hasAssignments, demoDB) ∧
      DeleteProjectResult.hasAssignments.status = 400) ∧
    ((demoDB.assignments.filter (fun a => a.projectId == 1)).length = 0 →
      (deleteProject demoDB 1).1 = .deleted ∧
      (deleteProject demoDB 1).2.projects
        = demoDB.projects.filter (fun q => !(q.id == 1)) ∧
      findProject (deleteProject demoDB 1).2 1 = none ∧
      (deleteProject demoDB 1).2.assignments = demoDB.assignments ∧
      (deleteProject demoDB 1).2.users = demoDB.users)) :=
  deleteProject_spec demoDB 1 demoProject (by rfl)

/-- C5: an engineer-role caller obtains exactly the assignments whose
engineerId is their own userId, and a manager-role caller obtains all
assignments; as lists, the response is a permutation of the corresponding
selection (the handler only reorders by start date). -/
theorem listAssignments_spec (db : DB) (caller : Caller) (a : Assignment) :
    (a ∈ listAssignments db caller ↔
      a ∈ db.assignments ∧
        (caller.role = "engineer" → a.engineerId = caller.userId)) ∧
    (caller.role = "engineer" →
      (listAssignments db caller).Perm
        (db.assignments.filter (fun x => x.engineerId == caller.userId))) ∧
    (caller.role = "manager" →
      (listAssignments db caller).Perm db.assignments) := by
  refine ⟨?_, ?_, ?_⟩
  · unfold listAssignments
    by_cases h : caller.role = "engineer"
    · simp [h, List.mem_mergeSort, List.mem_filter]
    · simp [h, List.mem_mergeSort]
  · intro h
    unfold listAssignments
    simp only [h, beq_self_eq_true, if_pos]
    exact List.mergeSort_perm _ _
  · intro h
    unfold listAssignments
    have : (caller.role == "engineer") = false := by
      simp [h]
    simp only [this, Bool.false_eq_true, if_false]
    exact List.mergeSort_perm _ _

/-- The spec-side sum for the utilization report: Σ allocationPercentage
over the engineer's assignments whose window contains today. -/
def todayAllocationSum (db : DB) (engineerId : Nat) (today : Int) : Int :=
  ((assignmentsContaining db engineerId today).map
    (fun a => a.allocationPercentage)).sum

/-- C7: the utilization report carries, for every engineer, the sum of
allocations of assignments containing today's date only, and reports
currentAllocation / maxCapacity × 100 (total division in ℚ; the code guards
nothing, so for maxCapacity ≠ 0 the entry satisfies the genuine division
identity utilization × maxCapacity = currentAllocation × 100). -/
theorem utilization_spec (db : DB) (today : Int) (engineer : User)
    (h1 : engineer ∈ db.users) (h2 : engineer.role = "engineer") :
    ∃ entry ∈ utilizationReport db today,
      entry.engineerId = engineer.id ∧
      entry.maxCapacity = engineer.maxCapacity ∧
      entry.currentAllocation = todayAllocationSum db engineer.id today ∧
      entry.utilizationPercentage =
        ((entry.currentAllocation : ℚ) / (entry.maxCapacity : ℚ)) * 100 ∧
      (engineer.maxCapacity ≠ 0 →
        entry.utilizationPercentage * (engineer.maxCapacity : ℚ)
          = (entry.currentAllocation : ℚ) * 100) := by
  have hmem : engineer ∈ db.users.filter (fun u => u.role == "engineer") := by
    rw [List.mem_filter]
    exact ⟨h1, by simp [h2]⟩
  unfold utilizationReport
  refine ⟨_, List.mem_map_of_mem _ hmem, rfl, rfl, ?_, rfl, ?_⟩
  · simp only [todayAllocationSum, foldl_add_alloc, zero_add]
  · intro hz
    have hz' : ((engineer.maxCapacity : ℚ)) ≠ 0 := by
      exact_mod_cast hz
    field_simp

/-- Witness for C7: engineer 1 of the worked-example store on a day inside
the existing assignment's window. -/
theorem utilization_spec_witness :
    ∃ entry ∈ utilizationReport demoDB 20250715,
      entry.engineerId = demoEngineer.id ∧
      entry.maxCapacity = demoEngineer.maxCapacity ∧
      entry.currentAllocation = todayAllocationSum demoDB demoEngineer.id 20250715 ∧
      entry.utilizationPercentage =
        ((entry.currentAllocation : ℚ) / (entry.maxCapacity : ℚ)) * 100 ∧
      (demoEngineer.maxCapacity ≠ 0 →
        entry.utilizationPercentage * (demoEngineer.maxCapacity : ℚ)
          = (entry.currentAllocation : ℚ) * 100) :=
  utilization_spec demoDB 20250715 demoEngineer (by decide) (by rfl)

/-- C10: each listed engineer's currentAllocation is
maxCapacity − availableCapacity over the queried window and hence never
exceeds maxCapacity; when overlapping allocations sum to 150 against a
maxCapacity of 100, the report shows 100, not the true sum. -/
theorem engineers_listing_spec (db : DB) (now fut : Int) (engineer : User)
    (h1 : engineer ∈ db.users) (h2 : engineer.role = "engineer") :
    (∃ entry ∈ listEngineers db now fut,
      entry.user = engineer ∧
      entry.currentAllocation
        = engineer.maxCapacity - getAvailableCapacity db engineer.id now fut ∧
      entry.currentAllocation ≤ engineer.maxCapacity) ∧
    allocationSum overAllocDB 1 0 100 = 150 ∧
    (listEngineers overAllocDB 0 100).map (fun entry => entry.currentAllocation)
      = [100] := by
  refine ⟨?_, by decide, by decide⟩
  have hmem : engineer ∈ db.users.filter (fun u => u.role == "engineer") := by
    rw [List.mem_filter]
    exact ⟨h1, by simp [h2]⟩
  unfold listEngineers
  refine ⟨_, List.mem_map_of_mem _ hmem, rfl, rfl, ?_⟩
  show engineer.maxCapacity - getAvailableCapacity db engineer.id now fut
      ≤ engineer.maxCapacity
  have := getAvailableCapacity_nonneg db engineer.id now fut
  omega

/-- C2: a creation request allocating strictly more than the engineer's
available capacity over the request's own window answers 400 and persists
nothing; one allocating at most the available capacity persists the
assignment, and a subsequent capacity query over the same window is reduced
by the allocated amount.  In the worked example (maxCapacity 100, existing
60% over [2025-06-01, 2025-09-30]) a 50% request over
[2025-07-01, 2025-08-01] is refused with 40% available, a 30% request
succeeds and leaves 10%. -/
theorem createAssignment_capacity_spec (db : DB) (nid eid pid : Nat)
    (alloc s e : Int) (role : String) (engineer : User) (project : Project)
    (ha : alloc ≠ 0) (hr : role ≠ "")
    (hEng : findUser db eid = some engineer)
    (hProj : findProject db pid = some project)
    (hse : s ≤ e) :
    (alloc > getAvailableCapacity db eid s e →
      createAssignment db
          ⟨some eid, some pid, some alloc, some s, some e, some role⟩ nid
        = (.capacityExceeded (getAvailableCapacity db eid s e) alloc, db) ∧
      (CreateResult.capacityExceeded
          (getAvailableCapacity db eid s e) alloc).status = 400) ∧
    (alloc ≤ getAvailableCapacity db eid s e →
      createAssignment db
          ⟨some eid, some pid, some alloc, some s, some e, some role⟩ nid
        = (.created (newAssignment nid eid pid alloc s e role),
           { db with assignments :=
              db.assignments ++ [newAssignment nid eid pid alloc s e role] })) ∧
    (0 < alloc → alloc ≤ getAvailableCapacity db eid s e →
      getAvailableCapacity
          (createAssignment db
            ⟨some eid, some pid, some alloc, some s, some e, some role⟩ nid).2
          eid s e
        = getAvailableCapacity db eid s e - alloc) ∧
    createAssignment demoDB
        ⟨some 1, some 1, some 50, some 20250701, some 20250801, some "Developer"⟩ 2
      = (.capacityExceeded 40 50, demoDB) ∧
    createAssignment demoDB
        ⟨some 1, some 1, some 30, some 20250701, some 20250801, some "Developer"⟩ 2
      = (.created (newAssignment 2 1 1 30 20250701 20250801 "Developer"),
         { demoDB with assignments :=
            demoDB.assignments
              ++ [newAssignment 2 1 1 30 20250701 20250801 "Developer"] }) ∧
    getAvailableCapacity
        (createAssignment demoDB
          ⟨some 1, some 1, some 30, some 20250701, some 20250801, some "Developer"⟩ 2).2
        1 20250701 20250801 = 10 := by
  have hrun := createAssignment_run db nid eid pid alloc s e role ha hr
  rw [hEng, hProj] at hrun
  refine ⟨?_, ?_, ?_, by decide, by decide, by decide⟩
  · intro hgt
    refine ⟨?_, rfl⟩
    rw [hrun]
    simp [hgt]
  · intro hle
    have hng : ¬ alloc > getAvailableCapacity db eid s e := not_lt.mpr hle
    rw [hrun]
    simp [hng]
  · intro hpos hle
    have hng : ¬ alloc > getAvailableCapacity db eid s e := not_lt.mpr hle
    have hcreate : createAssignment db
        ⟨some eid, some pid, some alloc, some s, some e, some role⟩ nid
        = (.created (newAssignment nid eid pid alloc s e role),
           { db with assignments :=
              db.assignments ++ [newAssignment nid eid pid alloc s e role] }) := by
      rw [hrun]
      simp [hng]
    rw [hcreate]
    show getAvailableCapacity
        { db with assignments :=
            db.assignments ++ [newAssignment nid eid pid alloc s e role] }
        eid s e
      = getAvailableCapacity db eid s e - alloc
    have hov : overlaps (newAssignment nid eid pid alloc s e role) s e = true := by
      simp [overlaps, newAssignment, hse]
    have hfound : findUser
        { db with assignments :=
            db.assignments ++ [newAssignment nid eid pid alloc s e role] }
        eid = some engineer := hEng
    rw [getAvailableCapacity_found _ eid s e engineer hfound,
        allocationSum_append db eid s e _ rfl hov,
        getAvailableCapacity_found db eid s e engineer hEng]
    rw [getAvailableCapacity_found db eid s e engineer hEng] at hle
    simp only [newAssignment]
    omega

/-- Witness for C2: the worked example itself, with the 50% request as the
over-allocating instance. -/
theorem createAssignment_capacity_spec_witness :
    ((50:Int) > getAvailableCapacity demoDB 1 20250701 20250801 →
      createAssignment demoDB
          ⟨some 1, some 1, some 50, some 20250701, some 20250801, some "Developer"⟩ 2
        = (.capacityExceeded (getAvailableCapacity demoDB 1 20250701 20250801) 50,
           demoDB) ∧
      (CreateResult.capacityExceeded
          (getAvailableCapacity demoDB 1 20250701 20250801) 50).status = 400) ∧
    ((50:Int) ≤ getAvailableCapacity demoDB 1 20250701 20250801 →
      createAssignment demoDB
          ⟨some 1, some 1, some 50, some 20250701, some 20250801, some "Developer"⟩ 2
        = (.created (newAssignment 2 1 1 50 20250701 20250801 "Developer"),
           { demoDB with assignments :=
              demoDB.assignments
                ++ [newAssignment 2 1 1 50 20250701 20250801 "Developer"] })) ∧
    ((0:Int) < 50 → (50:Int) ≤ getAvailableCapacity demoDB 1 20250701 20250801 →
      getAvailableCapacity
          (createAssignment demoDB
            ⟨some 1, some 1, some 50, some 20250701, some 20250801, some "Developer"⟩ 2).2
          1 20250701 20250801
        = getAvailableCapacity demoDB 1 20250701 20250801 - 50) ∧
    createAssignment demoDB
        ⟨some 1, some 1, some 50, some 20250701, some 20250801, some "Developer"⟩ 2
      = (.capacityExceeded 40 50, demoDB) ∧
    createAssignment demoDB
        ⟨some 1, some 1, some 30, some 20250701, some 20250801, some "Developer"⟩ 2
      = (.created (newAssignment 2 1 1 30 20250701 20250801 "Developer"),
         { demoDB with assignments :=
            demoDB.assignments
              ++ [newAssignment 2 1 1 30 20250701 20250801 "Developer"] }) ∧
    getAvailableCapacity
        (createAssignment demoDB
          ⟨some 1, some 1, some 30, some 20250701, some 20250801, some "Developer"⟩ 2).2
        1 20250701 20250801 = 10 :=
  createAssignment_capacity_spec demoDB 2 1 1 50 20250701 20250801 "Developer"
    demoEngineer demoProject (by decide) (by decide) (by rfl) (by rfl) (by decide)

/-- C8: a creation request missing any of the six fields answers 400 and
persists nothing; a complete request naming a nonexistent engineer or (with
the engineer present) a nonexistent project answers 404 and persists
nothing. -/
theorem createAssignment_validation_spec (db : DB) (req : CreateAssignmentReq)
    (nid : Nat) :
    ((req.engineerId = none ∨ req.projectId = none ∨
      req.allocationPercentage = none ∨ req.startDate = none ∨
      req.endDate = none ∨ req.role = none) →
      createAssignment db req nid = (.missingFields, db) ∧
      CreateResult.missingFields.status = 400) ∧
    (∀ eid pid alloc s e role,
      req = ⟨some eid, some pid, some alloc, some s, some e, some role⟩ →
      alloc ≠ 0 → role ≠ "" →
      (findUser db eid = none →
        createAssignment db req nid = (.engineerNotFound, db) ∧
        CreateResult.engineerNotFound.status = 404) ∧
      (∀ engineer, findUser db eid = some engineer →
        findProject db pid = none →
        createAssignment db req nid = (.projectNotFound, db) ∧
        CreateResult.projectNotFound.status = 404)) := by
  constructor
  · intro h
    refine ⟨?_, rfl⟩
    unfold createAssignment
    rcases h with h|h|h|h|h|h <;>
      simp [h, falsyId, falsyNum, falsyDate, falsyStr]
  · rintro eid pid alloc s e role rfl ha hr
    have hrun := createAssignment_run db nid eid pid alloc s e role ha hr
    constructor
    · intro hu
      rw [hrun, hu]
      exact ⟨rfl, rfl⟩
    · intro engineer hu hp
      rw [hrun, hu, hp]
      exact ⟨rfl, rfl⟩

/-- C9: a creation request whose allocationPercentage is present but 0 is
rejected by the falsiness-based required-field check as missing fields
(400), although 0 lies inside the schema's [0,100] range. -/
theorem zero_allocation_rejected (db : DB) (req : CreateAssignmentReq)
    (nid : Nat) (h : req.allocationPercentage = some 0) :
    createAssignment db req nid = (.missingFields, db) ∧
    CreateResult.missingFields.status = 400 ∧
    allocationInSchemaRange 0 = true := by
  refine ⟨?_, rfl, by decide⟩
  unfold createAssignment
  simp [h, falsyNum]

/-- Witness for C9: every other field present and valid, allocation 0. -/
theorem zero_allocation_rejected_witness :
    createAssignment demoDB
        ⟨some 1, some 1, some 0, some 20250701, some 20250801, some "Developer"⟩ 2
      = (.missingFields, demoDB) ∧
    CreateResult.missingFields.status = 400 ∧
    allocationInSchemaRange 0 = true :=
  zero_allocation_rejected demoDB
    ⟨some 1, some 1, some 0, some 20250701, some 20250801, some "Developer"⟩ 2
    (by rfl)

/-- Witness for C10 at the over-allocated store: the engineer's reported
allocation is capped at 100. -/
theorem engineers_listing_spec_witness :
    (∃ entry ∈ listEngineers overAllocDB 0 100,
      entry.user = demoEngineer ∧
      entry.currentAllocation
        = demoEngineer.maxCapacity
            - getAvailableCapacity overAllocDB demoEngineer.id 0 100 ∧
      entry.currentAllocation ≤ demoEngineer.maxCapacity) ∧
    allocationSum overAllocDB 1 0 100 = 150 ∧
    (listEngineers overAllocDB 0 100).map (fun entry => entry.currentAllocation)
      = [100] :=
  engineers_listing_spec overAllocDB 0 100 demoEngineer (by decide) (by rfl)

end ERM
